import Mathlib

/-!
Shallow embedding of the scholarly preprocessing pipeline
(src/data.py and src/elmo.py) together with proofs about it.

Tables read from tab-separated files are modelled as a header row plus a
list of rows of optional strings, a missing value (pandas NaN) being
`none`.  The filesystem is an association list from path strings to file
contents; plain text files hold a `String`, tab-separated files hold a
`Table`.  The spaCy tokeniser is an external collaborator and is taken as
a parameter `tok : String → List String`.
-/

namespace Scholarly

/-- A cell of a tab-separated table; `none` models a pandas NaN. -/
abbrev Cell := Option String

/-- A tab-separated table: the header names and the data rows. -/
structure Table where
  header : List String
  rows : List (List Cell)
deriving DecidableEq, Repr

/-- Contents of one file: plain text or a parsed tab-separated table. -/
inductive FileData
  | text (s : String)
  | table (t : Table)
deriving DecidableEq, Repr

/-- The filesystem: an association list from paths to file contents.
A write prepends, and a lookup takes the first (most recent) entry. -/
abbrev FS := List (String × FileData)

/-- Read the file at path `p`, if present. -/
def fsLookup (fs : FS) (p : String) : Option FileData :=
  (fs.find? (fun kv => kv.1 = p)).map (fun kv => kv.2)

/-- Write (create or truncate) the file at path `p`. -/
def fsWrite (fs : FS) (p : String) (d : FileData) : FS :=
  (p, d) :: fs

/-- `batch_iter` from src/data.py (lines 19-42): split an iterable into
batches of at most `batch_size` elements.  The generator pulls one element
with `next` (stopping the loop when the source is exhausted, despite the
docstring's promise of endless empty iterators) and yields it chained with
the rest of the `islice`.  Under the assumption that each yielded batch is
fully consumed before the next is requested, the generator behaves as this
chunking function.  With `batch_size = 0` the first `next` on the empty
`islice` raises StopIteration at once, so nothing is yielded. -/
def batchIter {α : Type} (batch_size : Nat) : List α → List (List α)
  | [] => []
  | x :: xs =>
    if batch_size = 0 then []
    else (x :: xs).take batch_size :: batchIter batch_size ((x :: xs).drop batch_size)
termination_by l => l.length
decreasing_by
  simp only [List.length_drop, List.length_cons]
  omega

/-- Result of running an effectful function: `err` is the exception that
propagated out (if any) and `fs` the filesystem as left behind. -/
structure PResult where
  err : Option String
  fs : FS
deriving DecidableEq, Repr

/-- `pd.read_csv(cats_in, sep = TAB, usecols = ["title", "abstract"])`
(src/data.py line 87) followed by selecting the two columns: for each row,
the pair of its title cell and its abstract cell.  `none` when a column is
missing (pandas raises ValueError). -/
def titleAbstractPairs (t : Table) : Option (List (Cell × Cell)) :=
  match t.header.findIdx? (fun c => c = "title"),
        t.header.findIdx? (fun c => c = "abstract") with
  | some ti, some ai => some (t.rows.map (fun r => (r.getD ti none, r.getD ai none)))
  | _, _ => none

/-- `df.dropna()` on the two-column frame followed by
`docs = df["title"] + " " + df["abstract"]` (src/data.py lines 88-90):
rows missing either value are dropped, the others merged. -/
def mergedDocs (pairs : List (Cell × Cell)) : List String :=
  pairs.filterMap (fun p =>
    match p.1, p.2 with
    | some ttl, some ab => some (ttl ++ " " ++ ab)
    | _, _ => none)

/-- One write of the tokenisation loop (src/data.py line 96):
`" ".join(tok.text for tok in doc) + "\n"`. -/
def tokLine (tok : String → List String) (doc : String) : String :=
  String.intercalate " " (tok doc) ++ "\n"

/-- The tokenisation loop (src/data.py lines 93-98): the text file content
produced by writing one line per document, in order.  `tokenizer.pipe`
yields one tokenised doc per input text, in order; the batching inside
`pipe` does not change that stream. -/
def writeDocs (tok : String → List String) (docs : List String) : String :=
  docs.foldl (fun acc doc => acc ++ tokLine tok doc) ""

/-- Python `f.readlines()`: split the content into lines, each keeping its
trailing newline; a final segment without a newline is kept too. -/
def readlinesAux : List Char → List Char → List String
  | [], [] => []
  | [], acc => [String.mk acc.reverse]
  | c :: cs, acc =>
    if c = '\n' then String.mk (acc.reverse ++ ['\n']) :: readlinesAux cs []
    else readlinesAux cs (c :: acc)

/-- Python `f.readlines()` on the whole file content. -/
def readlines (s : String) : List String :=
  readlinesAux s.data []

/-- `df.dropna()` over every column: a row survives when no cell is NaN. -/
def rowFull (r : List Cell) : Bool :=
  r.all (fun c => c.isSome)

/-- The category column names: `df.drop(columns = ["title", "abstract"])`
keeps the remaining columns in their original order (src/data.py 106-107). -/
def catCols (header : List String) : List String :=
  header.filter (fun c => c != "title" && c != "abstract")

/-- Project a row onto the category columns, in their original order. -/
def dropTA (header : List String) (r : List Cell) : List Cell :=
  ((header.zip r).filter (fun p => p.1 != "title" && p.1 != "abstract")).map
    (fun p => p.2)

/-- Pad a parsed row with NaN up to the header width, as pandas does for a
short line.  A row already at least as wide is returned unchanged. -/
def padRow (n : Nat) (r : List Cell) : List Cell :=
  r ++ List.replicate (n - r.length) none

/-- `pd.read_csv(path, sep = TAB)` on the modelled filesystem: the file
must exist and parse as a table; short rows are NaN-padded. -/
def readCsvFull (fs : FS) (path : String) : Except String Table :=
  match fsLookup fs path with
  | none => .error "FileNotFoundError"
  | some (.text _) => .error "ParserError"
  | some (.table t) =>
    .ok { header := t.header, rows := t.rows.map (padRow t.header.length) }

/-- The body of the storing loop (src/data.py lines 104-111): read the
input tsv, drop rows with any missing value, drop the title and abstract
columns (KeyError when absent), read the text file back with
`readlines()`, prepend its lines as the `text` column (ValueError when the
number of lines differs from the number of surviving rows, because pandas
requires an exact length match when assigning a list to a column) and
write the reordered table. -/
def storeStep (fs : FS) (txt_path IN OUT : String) : PResult :=
  match readCsvFull fs IN with
  | .error e => ⟨some e, fs⟩
  | .ok t =>
    if "title" ∈ t.header ∧ "abstract" ∈ t.header then
      match fsLookup fs txt_path with
      | some (.text content) =>
        if (readlines content).length = (t.rows.filter rowFull).length then
          ⟨none, fsWrite fs OUT (.table ⟨"text" :: catCols t.header,
            ((readlines content).zip (t.rows.filter rowFull)).map
              (fun p => some p.1 :: dropTA t.header p.2)⟩)⟩
        else ⟨some "ValueError", fs⟩
      | _ => ⟨some "FileNotFoundError", fs⟩
    else ⟨some "KeyError", fs⟩

/-- `preprocess_data` from src/data.py (lines 44-111).  The tokeniser is a
parameter; `batch_size` only sets the batch size of `tokenizer.pipe` and
does not change the emitted stream.  Note that the text file path is
hardcoded to `data_dir/preprocessed_docs.txt` (line 81): the `txt_fname`
parameter is never used. -/
def preprocess_data (cats_fname mcats_fname txt_fname data_dir : String)
    (batch_size : Nat) (tok : String → List String) (fs : FS) : PResult :=
  match fsLookup fs (data_dir ++ "/" ++ cats_fname ++ ".tsv") with
  | none => ⟨some "FileNotFoundError", fs⟩
  | some (.text _) => ⟨some "ParserError", fs⟩
  | some (.table t) =>
    match titleAbstractPairs t with
    | none => ⟨some "ValueError", fs⟩
    | some pairs =>
      match storeStep
          (fsWrite fs (data_dir ++ "/preprocessed_docs.txt")
            (.text (writeDocs tok (mergedDocs pairs))))
          (data_dir ++ "/preprocessed_docs.txt")
          (data_dir ++ "/" ++ cats_fname ++ ".tsv")
          (data_dir ++ "/" ++ cats_fname ++ "_pp.tsv") with
      | ⟨some e, fs2⟩ => ⟨some e, fs2⟩
      | ⟨none, fs2⟩ =>
        storeStep fs2 (data_dir ++ "/preprocessed_docs.txt")
          (data_dir ++ "/" ++ mcats_fname ++ ".tsv")
          (data_dir ++ "/" ++ mcats_fname ++ "_pp.tsv")

/-- The `__main__` guard of src/data.py (lines 202-203): running the
module calls `preprocess_data()` with every argument at its default from
the signature; the command line `argv` is never inspected. -/
def mainScript (argv : List String) (tok : String → List String) (fs : FS) :
    PResult :=
  preprocess_data "arxiv_data_cats" "arxiv_data_mcats" "preprocessed_docs.txt"
    "data" 1000 tok fs

/-- The opening of `load_data` (src/data.py lines 160-176) as far as pure
file access goes: `pd.read_csv(path, sep = TAB, nrows = 1)` reads the
header of the tsv file and raises FileNotFoundError when the file is
missing; everything after the reads (fields, vocabulary, iterators) is
delegated to the external torchtext library and is out of scope here.  The
model returns the column names the function derives. -/
def load_data (tsv_fname data_dir : String) (fs : FS) :
    Except String (List String) :=
  match fsLookup fs (data_dir ++ "/" ++ tsv_fname ++ ".tsv") with
  | none => .error "FileNotFoundError"
  | some (.text _) => .error "ParserError"
  | some (.table t) => .ok t.header

/-- Cost model for the memory behaviour of `preprocess_data`:
`pd.read_csv(cats_in, ...)` (src/data.py line 87) materialises the whole
frame, one entry per input row, before the tokenisation loop starts; the
`docs` series then holds one merged string per surviving row until the
loop ends, and `f.readlines()` (line 109) later materialises one string
per written line.  `residentRows` counts the rows resident at once right
after the read: a lower bound on the peak memory of the function. -/
def residentRows (t : Table) : Nat :=
  t.rows.length

/-- A family of well-formed inputs of unbounded size. -/
def tableN (n : Nat) : Table :=
  ⟨["title", "abstract"], List.replicate n [some "t", some "a"]⟩

/-- One sample of the loaded dataset: the tokenised text and the category
values. -/
structure Sample where
  text : List String
  cats : List Cell
deriving DecidableEq, Repr

/-- Modelled from the spec: torchtext's `BucketIterator` is an external
collaborator (the spec's "tensor-batching/iteration framework") whose code
is not in the repository.  The spec's glossary describes the behaviour:
"Bucketed batching: grouping samples of similar length together before
padding to reduce wasted computation."  The model orders the samples by
the given key and cuts consecutive runs into batches.  The key itself,
`sort_key = lambda sample: len(sample.text)`, is the one passed by
`load_data` (src/data.py line 189). -/
def bucketBatches (key : Sample → Nat) (bs : Nat) (samples : List Sample) :
    List (List Sample) :=
  batchIter bs (samples.mergeSort (fun a b => decide (key a ≤ key b)))

/-- The padding token. -/
def padToken : String := "<pad>"

/-- The longest text length inside a batch. -/
def batchMaxLen (b : List Sample) : Nat :=
  (b.map (fun s => s.text.length)).foldl max 0

/-- Extend a sample's text with padding tokens up to length `n`. -/
def padTo (n : Nat) (s : Sample) : Sample :=
  { s with text := s.text ++ List.replicate (n - s.text.length) padToken }

/-- Modelled from the spec: every batch is padded to a uniform length
(the longest text it holds) before being yielded. -/
def padBatch (b : List Sample) : List Sample :=
  b.map (padTo (batchMaxLen b))

/-- The batch stream of the train/validation iterators `load_data` returns
(src/data.py lines 181-190): a `BucketIterator` over the samples with sort
key the number of tokens of the text field, every batch padded. -/
def loadDataBatches (bs : Nat) (samples : List Sample) : List (List Sample) :=
  (bucketBatches (fun s => s.text.length) bs samples).map padBatch

/-- The batch slices of `extract` (src/elmo.py lines 36-38):
`arr[i:i+batch_size]` for `i in np.arange(0, data_rows, batch_size)`; for
`batch_size ≥ 1` the arange has one entry per started chunk. -/
def extractBatches {α : Type} (bs : Nat) (arr : List α) : List (List α) :=
  (List.range' 0 ((arr.length + bs - 1) / bs) bs).map
    (fun i => (arr.drop i).take bs)

/-- `elmo_vectors` (src/elmo.py lines 12-22): the external ELMo module
returns one embedding tensor per row of the batch, and
`tf.reduce_mean(embeddings, 1)` averages it into one vector per row; the
whole per-row computation is the abstract parameter `rowEmbed`. -/
def elmo_vectors {α β : Type} (rowEmbed : α → β) (batch : List α) : List β :=
  batch.map rowEmbed

/-- `extract` (src/elmo.py lines 25-55): run `elmo_vectors` on each batch
in order and `np.concatenate` the results. -/
def extract {α β : Type} (rowEmbed : α → β) (arr : List α) (bs : Nat) :
    List β :=
  ((extractBatches bs arr).map (elmo_vectors rowEmbed)).flatten

/-- A two-row input table whose second row is missing its title. -/
def exTable : Table :=
  ⟨["title", "abstract", "cat"],
   [[some "t1", some "a1", some "1"], [none, some "a2", some "2"]]⟩

/-- A tokeniser for concrete runs: one token, the whole document. -/
def exTok : String → List String := fun s => [s]

/-- A filesystem holding the example table under both default names. -/
def exFS : FS :=
  [("data/arxiv_data_cats.tsv", .table exTable),
   ("data/arxiv_data_mcats.tsv", .table exTable)]

/-- The run of `preprocess_data` on the example with every default. -/
def exRun : PResult :=
  preprocess_data "arxiv_data_cats" "arxiv_data_mcats" "preprocessed_docs.txt"
    "data" 1000 exTok exFS

/-- A clean one-row table used to witness the general theorems. -/
def wTable : Table :=
  ⟨["title", "abstract", "cat"], [[some "t", some "a", some "1"]]⟩

/-- The title/abstract pairs of `wTable`. -/
def wPairs : List (Cell × Cell) := [(some "t", some "a")]

/-- A constant two-token tokeniser without newlines. -/
def wTok : String → List String := fun _ => ["x", "y"]

/-- A filesystem holding the clean table under both default names. -/
def wFS : FS :=
  [("data/arxiv_data_cats.tsv", .table wTable),
   ("data/arxiv_data_mcats.tsv", .table wTable)]

/-- Three samples of differing text lengths. -/
def wSamples : List Sample :=
  [⟨["u", "v"], [some "1"]⟩, ⟨["w"], [some "0"]⟩,
   ⟨["p", "q", "r"], [some "1"]⟩]

/-! ### Properties of the chunking generator -/

theorem batchIter_nil {α : Type} (bs : Nat) : batchIter (α := α) bs [] = [] := by
  simp [batchIter]

theorem batchIter_cons {α : Type} (bs : Nat) (x : α) (xs : List α) (h : bs ≠ 0) :
    batchIter bs (x :: xs) =
      (x :: xs).take bs :: batchIter bs ((x :: xs).drop bs) := by
  rw [batchIter]
  simp [h]

/-- Concatenating the batches in order recovers the input sequence. -/
theorem batchIter_join {α : Type} (bs : Nat) (h : 1 ≤ bs) (l : List α) :
    (batchIter bs l).flatten = l := by
  cases l with
  | nil => simp [batchIter]
  | cons x xs =>
    have hbs : bs ≠ 0 := Nat.one_le_iff_ne_zero.mp h
    rw [batchIter_cons bs x xs hbs]
    have ih := batchIter_join bs h ((x :: xs).drop bs)
    simp [List.flatten, ih]
termination_by l.length
decreasing_by
  simp only [List.length_drop, List.length_cons]
  omega

/-- Every batch is non-empty and holds at most `batch_size` elements. -/
theorem batchIter_mem {α : Type} (bs : Nat) (h : 1 ≤ bs) (l : List α)
    (b : List α) (hb : b ∈ batchIter bs l) : b ≠ [] ∧ b.length ≤ bs :=
  match l, hb with
  | [], hb => by simp [batchIter] at hb
  | x :: xs, hb => by
    have hbs : bs ≠ 0 := Nat.one_le_iff_ne_zero.mp h
    rw [batchIter_cons bs x xs hbs] at hb
    rcases List.mem_cons.mp hb with hb | hb
    · subst hb
      refine ⟨?_, by simp [List.length_take]⟩
      intro hemp
      have hlen := congrArg List.length hemp
      simp [List.length_take] at hlen
      omega
    · exact batchIter_mem bs h ((x :: xs).drop bs) b hb
termination_by l.length
decreasing_by
  simp only [List.length_drop, List.length_cons]
  omega

/-- Every batch except possibly the last is full. -/
theorem batchIter_full {α : Type} (bs : Nat) (h : 1 ≤ bs) (l : List α)
    (b : List α) (hb : b ∈ (batchIter bs l).dropLast) : b.length = bs :=
  match l, hb with
  | [], hb => by simp [batchIter] at hb
  | x :: xs, hb => by
    have hbs : bs ≠ 0 := Nat.one_le_iff_ne_zero.mp h
    rw [batchIter_cons bs x xs hbs] at hb
    cases hrest : batchIter bs ((x :: xs).drop bs) with
    | nil => rw [hrest] at hb; simp at hb
    | cons y ys =>
      rw [hrest] at hb
      rw [List.dropLast_cons_of_ne_nil (by simp)] at hb
      rcases List.mem_cons.mp hb with hb | hb
      · subst hb
        have hne : (x :: xs).drop bs ≠ [] := by
          intro hd
          rw [hd, batchIter_nil] at hrest
          simp at hrest
        have hlen : bs < (x :: xs).length := by
          by_contra hle
          push_neg at hle
          exact hne (List.drop_eq_nil_of_le hle)
        simp only [List.length_take, List.length_cons] at hlen ⊢
        omega
      · exact batchIter_full bs h ((x :: xs).drop bs) b (by rw [hrest]; exact hb)
termination_by l.length
decreasing_by
  simp only [List.length_drop, List.length_cons]
  omega

/-! ### Lemmas about the text file: writing and reading back -/

theorem fsLookup_write_eq (fs : FS) (p : String) (d : FileData) :
    fsLookup (fsWrite fs p d) p = some d := by
  simp [fsLookup, fsWrite, List.find?]

theorem fsLookup_write_ne (fs : FS) (p q : String) (d : FileData)
    (h : q ≠ p) : fsLookup (fsWrite fs p d) q = fsLookup fs q := by
  have hd : (decide (p = q)) = false := decide_eq_false (fun he => h he.symm)
  simp [fsLookup, fsWrite, List.find?, hd]

theorem string_foldl_append : ∀ (l : List String) (a : String),
    l.foldl (fun x y => x ++ y) a = a ++ String.join l
  | [], a => by simp [String.join]
  | s :: ss, a => by
    have h1 : String.join (s :: ss) = ss.foldl (fun x y => x ++ y) s := rfl
    simp only [List.foldl_cons]
    rw [string_foldl_append ss (a ++ s), h1, string_foldl_append ss s,
        String.append_assoc]

theorem join_cons (s : String) (ss : List String) :
    String.join (s :: ss) = s ++ String.join ss := by
  have h1 : String.join (s :: ss) = ss.foldl (fun x y => x ++ y) s := rfl
  rw [h1, string_foldl_append ss s]

theorem writeDocs_foldl (tok : String → List String) (docs : List String)
    (a : String) :
    docs.foldl (fun acc doc => acc ++ tokLine tok doc) a
      = a ++ String.join (docs.map (tokLine tok)) := by
  induction docs generalizing a with
  | nil => simp [String.join]
  | cons d ds ih =>
    simp only [List.foldl_cons, List.map_cons]
    rw [ih (a ++ tokLine tok d), join_cons, String.append_assoc]

/-- The written file is exactly the per-document lines in order: each line
the document's tokens joined by single spaces, terminated by a newline. -/
theorem writeDocs_eq_join (tok : String → List String) (docs : List String) :
    writeDocs tok docs = String.join (docs.map (tokLine tok)) := by
  have h := writeDocs_foldl tok docs ""
  simpa [writeDocs] using h

theorem data_join (l : List String) :
    (String.join l).data = (l.map String.data).flatten := by
  induction l with
  | nil => rfl
  | cons s ss ih =>
    rw [join_cons, String.data_append, ih]
    simp

theorem readlinesAux_cons (c : Char) (cs acc : List Char) :
    readlinesAux (c :: cs) acc
      = if c = '\n'
        then String.mk (acc.reverse ++ ['\n']) :: readlinesAux cs []
        else readlinesAux cs (c :: acc) := by
  rfl

theorem readlinesAux_line (body : List Char) (rest acc : List Char)
    (h : '\n' ∉ body) :
    readlinesAux (body ++ '\n' :: rest) acc
      = String.mk (acc.reverse ++ (body ++ ['\n'])) :: readlinesAux rest [] := by
  induction body generalizing acc with
  | nil =>
    rw [List.nil_append, readlinesAux_cons, if_pos rfl]
    simp
  | cons c cs ih =>
    simp only [List.mem_cons, not_or] at h
    rw [List.cons_append, readlinesAux_cons, if_neg (fun he => h.1 he.symm),
        ih (c :: acc) h.2]
    simp

theorem readlines_lines (bodies : List (List Char))
    (h : ∀ b ∈ bodies, '\n' ∉ b) :
    readlinesAux ((bodies.map (fun b => b ++ ['\n'])).flatten) []
      = bodies.map (fun b => String.mk (b ++ ['\n'])) := by
  induction bodies with
  | nil => rfl
  | cons b bs ih =>
    simp only [List.map_cons, List.flatten_cons]
    rw [List.append_assoc, List.singleton_append,
        readlinesAux_line b _ [] (h b (List.mem_cons_self b bs))]
    simp only [List.reverse_nil, List.nil_append]
    rw [ih (fun x hx => h x (List.mem_cons_of_mem b hx))]

theorem mk_data_newline (s : String) : String.mk (s.data ++ ['\n']) = s ++ "\n" :=
  rfl

/-- Reading the written file back with `readlines()` recovers exactly one
line per document, in order, provided the tokeniser emits no newline
characters (true of the intended space-free tokens). -/
theorem readlines_writeDocs (tok : String → List String) (docs : List String)
    (h : ∀ d, '\n' ∉ (String.intercalate " " (tok d)).data) :
    readlines (writeDocs tok docs) = docs.map (tokLine tok) := by
  have hrl : readlines (writeDocs tok docs)
      = readlinesAux (writeDocs tok docs).data [] := rfl
  rw [hrl, writeDocs_eq_join, data_join, List.map_map]
  have hmap : docs.map (String.data ∘ tokLine tok)
      = (docs.map (fun d => (String.intercalate " " (tok d)).data)).map
          (fun b => b ++ ['\n']) := by
    simp only [List.map_map]
    apply List.map_congr_left
    intro d _
    simp [Function.comp, tokLine, String.data_append]
  rw [hmap, readlines_lines _ ?hnl]
  case hnl =>
    intro b hb
    obtain ⟨d, _, rfl⟩ := List.mem_map.mp hb
    exact h d
  simp only [List.map_map]
  apply List.map_congr_left
  intro d _
  simp only [Function.comp]
  rw [mk_data_newline]
  rfl

/-! ### Lemmas about the storing loop -/

/-- The storing step either leaves the filesystem alone (an error
propagated) or writes the single output file `OUT`. -/
theorem storeStep_fs (fs : FS) (txt IN OUT : String) :
    (storeStep fs txt IN OUT).fs = fs ∨
    ∃ d, (storeStep fs txt IN OUT).fs = fsWrite fs OUT d := by
  unfold storeStep
  repeat' split
  all_goals first
    | exact Or.inl rfl
    | exact Or.inr ⟨_, rfl⟩

/-- A successful storing step: the reads it did and the file it wrote. -/
theorem storeStep_ok (fs : FS) (txt IN OUT : String)
    (h : (storeStep fs txt IN OUT).err = none) :
    ∃ t content,
      readCsvFull fs IN = .ok t ∧
      fsLookup fs txt = some (.text content) ∧
      (readlines content).length = (t.rows.filter rowFull).length ∧
      storeStep fs txt IN OUT
        = ⟨none, fsWrite fs OUT (.table ⟨"text" :: catCols t.header,
            ((readlines content).zip (t.rows.filter rowFull)).map
              (fun p => some p.1 :: dropTA t.header p.2)⟩)⟩ := by
  unfold storeStep at h ⊢
  split at h
  · simp at h
  next t heq =>
    split at h
    · split at h
      next content heq2 =>
        split at h
        next hlen =>
          exact ⟨t, content, heq, heq2, hlen, by
            rw [if_pos ‹"title" ∈ t.header ∧ "abstract" ∈ t.header›,
                if_pos hlen]⟩
        · simp at h
      · simp at h
    · simp at h

/-- A row already as wide as the header is unchanged by NaN padding. -/
theorem padRow_eq (n : Nat) (r : List Cell) (h : r.length = n) :
    padRow n r = r := by
  simp [padRow, h]

/-- Reading back a rectangular table stored at `path`. -/
theorem readCsvFull_table (fs : FS) (path : String) (t : Table)
    (hfs : fsLookup fs path = some (.table t))
    (hrect : ∀ r ∈ t.rows, r.length = t.header.length) :
    readCsvFull fs path = .ok t := by
  unfold readCsvFull
  rw [hfs]
  have h2 : t.rows.map (padRow t.header.length) = t.rows := by
    have h3 : t.rows.map (padRow t.header.length) = t.rows.map id :=
      List.map_congr_left (fun r hr => padRow_eq _ r (hrect r hr))
    rw [h3, List.map_id]
  simp [h2]

theorem exists_of_findIdx? {α : Type} (p : α → Bool) :
    ∀ (l : List α) (i j : Nat), List.findIdx? p l i = some j →
      ∃ x ∈ l, p x = true
  | [], i, j, h => by simp [List.findIdx?] at h
  | x :: xs, i, j, h => by
    rw [List.findIdx?_cons] at h
    by_cases hp : p x = true
    · exact ⟨x, List.mem_cons_self x xs, hp⟩
    · rw [if_neg hp] at h
      obtain ⟨y, hy, hpy⟩ := exists_of_findIdx? p xs (i + 1) j h
      exact ⟨y, List.mem_cons_of_mem x hy, hpy⟩

/-- When the usecols read succeeds, the header really holds both column
names, so the later `df.drop(columns = ["title", "abstract"])` cannot
raise a KeyError on the same table. -/
theorem titleAbstract_mem (t : Table) (pairs : List (Cell × Cell))
    (hp : titleAbstractPairs t = some pairs) :
    "title" ∈ t.header ∧ "abstract" ∈ t.header := by
  unfold titleAbstractPairs at hp
  split at hp
  next ti ai hti hai =>
    constructor
    · obtain ⟨x, hx, hpx⟩ := exists_of_findIdx? _ t.header 0 ti hti
      simp only [decide_eq_true_eq] at hpx
      exact hpx ▸ hx
    · obtain ⟨x, hx, hpx⟩ := exists_of_findIdx? _ t.header 0 ai hai
      simp only [decide_eq_true_eq] at hpx
      exact hpx ▸ hx
  next => exact Option.noConfusion hp

/-- A storing step with every check satisfied writes its output file. -/
theorem storeStep_writes (fs : FS) (txt IN OUT : String) (t : Table)
    (content : String)
    (hread : readCsvFull fs IN = .ok t)
    (hta : "title" ∈ t.header ∧ "abstract" ∈ t.header)
    (htxt : fsLookup fs txt = some (.text content))
    (hlen : (readlines content).length = (t.rows.filter rowFull).length) :
    storeStep fs txt IN OUT
      = ⟨none, fsWrite fs OUT (.table ⟨"text" :: catCols t.header,
          ((readlines content).zip (t.rows.filter rowFull)).map
            (fun p => some p.1 :: dropTA t.header p.2)⟩)⟩ := by
  unfold storeStep
  rw [hread]
  dsimp only
  rw [if_pos hta, htxt]
  dsimp only
  rw [if_pos hlen]

/-- A storing step whose line count does not match the surviving rows
propagates pandas' ValueError and writes nothing. -/
theorem storeStep_len_mismatch (fs : FS) (txt IN OUT : String) (t : Table)
    (content : String)
    (hread : readCsvFull fs IN = .ok t)
    (hta : "title" ∈ t.header ∧ "abstract" ∈ t.header)
    (htxt : fsLookup fs txt = some (.text content))
    (hlen : ¬ (readlines content).length = (t.rows.filter rowFull).length) :
    storeStep fs txt IN OUT = ⟨some "ValueError", fs⟩ := by
  unfold storeStep
  rw [hread]
  dsimp only
  rw [if_pos hta, htxt]
  dsimp only
  rw [if_neg hlen]

/-- Dropping the prepended `text` cell from every output row recovers the
surviving rows projected onto the category columns, unchanged and in
order. -/
theorem zip_rows_drop_one (header : List String) (lines : List String)
    (kept : List (List Cell)) (hlen : lines.length = kept.length) :
    ((lines.zip kept).map (fun p => some p.1 :: dropTA header p.2)).map
        (fun r => r.drop 1)
      = kept.map (dropTA header) := by
  rw [List.map_map]
  have hfun : ((fun r : List Cell => r.drop 1) ∘
      (fun p : String × List Cell => some p.1 :: dropTA header p.2))
      = (fun p : String × List Cell => dropTA header p.2) := by
    funext p
    simp
  rw [hfun]
  have hsnd : (fun p : String × List Cell => dropTA header p.2)
      = (dropTA header ∘ Prod.snd) := rfl
  rw [hsnd, ← List.map_map, List.map_snd_zip _ _ (le_of_eq hlen.symm)]

/-! ### What a run of preprocess_data leaves on disk -/

/-- With the default file names, a run whose first read succeeds leaves
the tokenised text file at `data/preprocessed_docs.txt`, holding exactly
the lines written for the merged documents, whatever happens later. -/
theorem preprocess_txt (t : Table) (pairs : List (Cell × Cell)) (tf : String)
    (bs : Nat) (tok : String → List String) (fs : FS)
    (hfs : fsLookup fs "data/arxiv_data_cats.tsv" = some (.table t))
    (hp : titleAbstractPairs t = some pairs) :
    fsLookup (preprocess_data "arxiv_data_cats" "arxiv_data_mcats" tf "data"
        bs tok fs).fs "data/preprocessed_docs.txt"
      = some (.text (writeDocs tok (mergedDocs pairs))) := by
  unfold preprocess_data
  rw [show ("data" ++ "/" ++ "arxiv_data_cats" ++ ".tsv" : String)
        = "data/arxiv_data_cats.tsv" from rfl,
      show ("data" ++ "/preprocessed_docs.txt" : String)
        = "data/preprocessed_docs.txt" from rfl,
      show ("data" ++ "/" ++ "arxiv_data_cats" ++ "_pp.tsv" : String)
        = "data/arxiv_data_cats_pp.tsv" from rfl,
      show ("data" ++ "/" ++ "arxiv_data_mcats" ++ ".tsv" : String)
        = "data/arxiv_data_mcats.tsv" from rfl,
      show ("data" ++ "/" ++ "arxiv_data_mcats" ++ "_pp.tsv" : String)
        = "data/arxiv_data_mcats_pp.tsv" from rfl,
      hfs]
  dsimp only
  rw [hp]
  dsimp only
  have hW := fsLookup_write_eq fs "data/preprocessed_docs.txt"
    (.text (writeDocs tok (mergedDocs pairs)))
  rcases hs1 : storeStep
      (fsWrite fs "data/preprocessed_docs.txt"
        (.text (writeDocs tok (mergedDocs pairs))))
      "data/preprocessed_docs.txt" "data/arxiv_data_cats.tsv"
      "data/arxiv_data_cats_pp.tsv" with ⟨e1, fs2⟩
  have hfs2 : fsLookup fs2 "data/preprocessed_docs.txt"
      = some (.text (writeDocs tok (mergedDocs pairs))) := by
    rcases storeStep_fs
        (fsWrite fs "data/preprocessed_docs.txt"
          (.text (writeDocs tok (mergedDocs pairs))))
        "data/preprocessed_docs.txt" "data/arxiv_data_cats.tsv"
        "data/arxiv_data_cats_pp.tsv" with hkeep | ⟨d, hw⟩
    · rw [hs1] at hkeep
      have hk2 : fs2 = fsWrite fs "data/preprocessed_docs.txt"
          (.text (writeDocs tok (mergedDocs pairs))) := hkeep
      rw [hk2]
      exact hW
    · rw [hs1] at hw
      have hk2 : fs2 = fsWrite
          (fsWrite fs "data/preprocessed_docs.txt"
            (.text (writeDocs tok (mergedDocs pairs))))
          "data/arxiv_data_cats_pp.tsv" d := hw
      rw [hk2, fsLookup_write_ne _ _ _ _ (by decide)]
      exact hW
  cases e1 with
  | some e => exact hfs2
  | none =>
    dsimp only
    rcases storeStep_fs fs2 "data/preprocessed_docs.txt"
        "data/arxiv_data_mcats.tsv" "data/arxiv_data_mcats_pp.tsv"
      with hkeep | ⟨d, hw⟩
    · rw [hkeep]
      exact hfs2
    · rw [hw, fsLookup_write_ne _ _ _ _ (by decide)]
      exact hfs2

/-- A fully successful run with the default file names writes
`data/arxiv_data_cats_pp.tsv`: a `text` column of the read-back lines
followed by the surviving rows' category cells. -/
theorem preprocess_ok_cats (t : Table) (pairs : List (Cell × Cell))
    (tf : String) (bs : Nat) (tok : String → List String) (fs : FS)
    (hfs : fsLookup fs "data/arxiv_data_cats.tsv" = some (.table t))
    (hp : titleAbstractPairs t = some pairs)
    (hrect : ∀ r ∈ t.rows, r.length = t.header.length)
    (hok : (preprocess_data "arxiv_data_cats" "arxiv_data_mcats" tf "data"
        bs tok fs).err = none) :
    fsLookup (preprocess_data "arxiv_data_cats" "arxiv_data_mcats" tf "data"
        bs tok fs).fs "data/arxiv_data_cats_pp.tsv"
      = some (.table ⟨"text" :: catCols t.header,
          ((readlines (writeDocs tok (mergedDocs pairs))).zip
            (t.rows.filter rowFull)).map
            (fun p => some p.1 :: dropTA t.header p.2)⟩) ∧
    (readlines (writeDocs tok (mergedDocs pairs))).length
      = (t.rows.filter rowFull).length := by
  unfold preprocess_data at hok ⊢
  rw [show ("data" ++ "/" ++ "arxiv_data_cats" ++ ".tsv" : String)
        = "data/arxiv_data_cats.tsv" from rfl,
      show ("data" ++ "/preprocessed_docs.txt" : String)
        = "data/preprocessed_docs.txt" from rfl,
      show ("data" ++ "/" ++ "arxiv_data_cats" ++ "_pp.tsv" : String)
        = "data/arxiv_data_cats_pp.tsv" from rfl,
      show ("data" ++ "/" ++ "arxiv_data_mcats" ++ ".tsv" : String)
        = "data/arxiv_data_mcats.tsv" from rfl,
      show ("data" ++ "/" ++ "arxiv_data_mcats" ++ "_pp.tsv" : String)
        = "data/arxiv_data_mcats_pp.tsv" from rfl,
      hfs] at hok ⊢
  dsimp only at hok ⊢
  rw [hp] at hok ⊢
  dsimp only at hok ⊢
  rcases hs1 : storeStep
      (fsWrite fs "data/preprocessed_docs.txt"
        (.text (writeDocs tok (mergedDocs pairs))))
      "data/preprocessed_docs.txt" "data/arxiv_data_cats.tsv"
      "data/arxiv_data_cats_pp.tsv" with ⟨e1, fs2⟩
  cases e1 with
  | some e =>
    rw [hs1] at hok
    dsimp only at hok
    exact Option.noConfusion hok
  | none =>
    have h1ok : (storeStep
        (fsWrite fs "data/preprocessed_docs.txt"
          (.text (writeDocs tok (mergedDocs pairs))))
        "data/preprocessed_docs.txt" "data/arxiv_data_cats.tsv"
        "data/arxiv_data_cats_pp.tsv").err = none := by
      rw [hs1]
    obtain ⟨t', content, hread, htxt, hlen, heq⟩ := storeStep_ok _ _ _ _ h1ok
    have hread2 : readCsvFull
        (fsWrite fs "data/preprocessed_docs.txt"
          (.text (writeDocs tok (mergedDocs pairs))))
        "data/arxiv_data_cats.tsv" = .ok t := by
      apply readCsvFull_table
      · rw [fsLookup_write_ne _ _ _ _ (by decide)]
        exact hfs
      · exact hrect
    have ht' : t' = t := by
      rw [hread] at hread2
      exact Except.ok.inj hread2
    rw [ht'] at hlen heq
    have hcontent : content = writeDocs tok (mergedDocs pairs) := by
      have h2 := (fsLookup_write_eq fs "data/preprocessed_docs.txt"
        (.text (writeDocs tok (mergedDocs pairs)))) ▸ htxt
      cases h2
      rfl
    subst hcontent
    have hfs2 : fs2 = fsWrite
        (fsWrite fs "data/preprocessed_docs.txt"
          (.text (writeDocs tok (mergedDocs pairs))))
        "data/arxiv_data_cats_pp.tsv"
        (.table ⟨"text" :: catCols t.header,
          ((readlines (writeDocs tok (mergedDocs pairs))).zip
            (t.rows.filter rowFull)).map
            (fun p => some p.1 :: dropTA t.header p.2)⟩) := by
      have h3 := hs1 ▸ heq
      exact congrArg PResult.fs h3
    refine ⟨?_, hlen⟩
    rcases storeStep_fs fs2 "data/preprocessed_docs.txt"
        "data/arxiv_data_mcats.tsv" "data/arxiv_data_mcats_pp.tsv"
      with hkeep | ⟨d, hw⟩
    · rw [hkeep, hfs2]
      exact fsLookup_write_eq _ _ _
    · rw [hw, fsLookup_write_ne _ _ _ _ (by decide), hfs2]
      exact fsLookup_write_eq _ _ _

/-- The whole run, computed: when the cats read succeeds, the table is
rectangular, the tokeniser is newline-free and the cats line count
matches, the run is phase one (the text file write), the successful cats
store, and then exactly the mcats storing step on the resulting
filesystem — whatever that step then does. -/
theorem preprocess_run (t : Table) (pairs : List (Cell × Cell)) (tf : String)
    (bs : Nat) (tok : String → List String) (fs : FS)
    (hfs : fsLookup fs "data/arxiv_data_cats.tsv" = some (.table t))
    (hp : titleAbstractPairs t = some pairs)
    (hrect : ∀ r ∈ t.rows, r.length = t.header.length)
    (hnl : ∀ d, '\n' ∉ (String.intercalate " " (tok d)).data)
    (hlen : ((mergedDocs pairs).map (tokLine tok)).length
        = (t.rows.filter rowFull).length) :
    preprocess_data "arxiv_data_cats" "arxiv_data_mcats" tf "data" bs tok fs
      = storeStep
          (fsWrite (fsWrite fs "data/preprocessed_docs.txt"
              (.text (writeDocs tok (mergedDocs pairs))))
            "data/arxiv_data_cats_pp.tsv"
            (.table ⟨"text" :: catCols t.header,
              (((mergedDocs pairs).map (tokLine tok)).zip
                (t.rows.filter rowFull)).map
                (fun p => some p.1 :: dropTA t.header p.2)⟩))
          "data/preprocessed_docs.txt" "data/arxiv_data_mcats.tsv"
          "data/arxiv_data_mcats_pp.tsv" := by
  have hW : readlines (writeDocs tok (mergedDocs pairs))
      = (mergedDocs pairs).map (tokLine tok) :=
    readlines_writeDocs tok (mergedDocs pairs) hnl
  unfold preprocess_data
  rw [show ("data" ++ "/" ++ "arxiv_data_cats" ++ ".tsv" : String)
        = "data/arxiv_data_cats.tsv" from rfl,
      show ("data" ++ "/preprocessed_docs.txt" : String)
        = "data/preprocessed_docs.txt" from rfl,
      show ("data" ++ "/" ++ "arxiv_data_cats" ++ "_pp.tsv" : String)
        = "data/arxiv_data_cats_pp.tsv" from rfl,
      show ("data" ++ "/" ++ "arxiv_data_mcats" ++ ".tsv" : String)
        = "data/arxiv_data_mcats.tsv" from rfl,
      show ("data" ++ "/" ++ "arxiv_data_mcats" ++ "_pp.tsv" : String)
        = "data/arxiv_data_mcats_pp.tsv" from rfl,
      hfs]
  dsimp only
  rw [hp]
  dsimp only
  have hs1 : storeStep
      (fsWrite fs "data/preprocessed_docs.txt"
        (.text (writeDocs tok (mergedDocs pairs))))
      "data/preprocessed_docs.txt" "data/arxiv_data_cats.tsv"
      "data/arxiv_data_cats_pp.tsv"
      = ⟨none, fsWrite
          (fsWrite fs "data/preprocessed_docs.txt"
            (.text (writeDocs tok (mergedDocs pairs))))
          "data/arxiv_data_cats_pp.tsv"
          (.table ⟨"text" :: catCols t.header,
            ((readlines (writeDocs tok (mergedDocs pairs))).zip
              (t.rows.filter rowFull)).map
              (fun p => some p.1 :: dropTA t.header p.2)⟩)⟩ := by
    apply storeStep_writes
    · apply readCsvFull_table _ _ t _ hrect
      rw [fsLookup_write_ne _ _ _ _ (by decide)]
      exact hfs
    · exact titleAbstract_mem t pairs hp
    · exact fsLookup_write_eq _ _ _
    · rw [hW]
      exact hlen
  rw [hs1]
  dsimp only
  rw [hW]

/-! ### Facts about the cost-model inputs -/

theorem titleAbstractPairs_tableN (n : Nat) :
    titleAbstractPairs (tableN n)
      = some (List.replicate n (some "t", some "a")) := by
  simp [titleAbstractPairs, tableN, List.map_replicate]

theorem mergedDocs_replicate (n : Nat) :
    mergedDocs (List.replicate n ((some "t" : Cell), (some "a" : Cell)))
      = List.replicate n "t a" := by
  induction n with
  | zero => rfl
  | succ k ih =>
    rw [List.replicate_succ, List.replicate_succ]
    simp only [mergedDocs, List.filterMap_cons] at ih ⊢
    rw [ih]
    rfl

/-! ### Facts about bucketing and padding -/

theorem foldl_max_le_init : ∀ (l : List Nat) (i : Nat), i ≤ l.foldl max i
  | [], i => le_refl i
  | x :: xs, i =>
    le_trans (le_max_left i x) (foldl_max_le_init xs (max i x))

theorem mem_le_foldl_max : ∀ (l : List Nat) (i a : Nat), a ∈ l → a ≤ l.foldl max i
  | [], _, _, h => absurd h (List.not_mem_nil _)
  | x :: xs, i, a, h => by
    rcases List.mem_cons.mp h with rfl | h2
    · exact le_trans (le_max_right i a) (foldl_max_le_init xs (max i a))
    · exact mem_le_foldl_max xs (max i x) a h2

theorem padTo_length (n : Nat) (s : Sample) (h : s.text.length ≤ n) :
    (padTo n s).text.length = n := by
  simp [padTo]
  omega

theorem padBatch_uniform (b : List Sample) (x y : Sample)
    (hx : x ∈ padBatch b) (hy : y ∈ padBatch b) :
    x.text.length = y.text.length := by
  obtain ⟨sx, hsx, rfl⟩ := List.mem_map.mp hx
  obtain ⟨sy, hsy, rfl⟩ := List.mem_map.mp hy
  have h1 : sx.text.length ≤ batchMaxLen b :=
    mem_le_foldl_max _ 0 _ (List.mem_map_of_mem _ hsx)
  have h2 : sy.text.length ≤ batchMaxLen b :=
    mem_le_foldl_max _ 0 _ (List.mem_map_of_mem _ hsy)
  rw [padTo_length _ _ h1, padTo_length _ _ h2]

/-! ### Facts about the ELMo extraction loop -/

theorem range'_map_add (step d : Nat) : ∀ (n s : Nat),
    List.range' (s + d) n step = (List.range' s n step).map (fun i => i + d)
  | 0, _ => rfl
  | n + 1, s => by
    rw [List.range'_succ, List.range'_succ, List.map_cons,
        ← range'_map_add step d n (s + step), Nat.add_right_comm]

theorem ceil_div_shift (bs n : Nat) (hbs : 1 ≤ bs) :
    (n - bs + bs - 1) / bs = (n - 1) / bs := by
  rcases le_or_lt n bs with hle | hgt
  · rw [(@Nat.div_eq_zero_iff (n - bs + bs - 1) bs (by omega)).mpr (by omega),
        (@Nat.div_eq_zero_iff (n - 1) bs (by omega)).mpr (by omega)]
  · have e1 : n - bs + bs - 1 = (n - bs - 1) + bs := by omega
    have e2 : n - 1 = (n - bs - 1) + bs := by omega
    rw [e1, e2]

theorem extractBatches_aux {α : Type} (bs : Nat) (h : 1 ≤ bs) :
    ∀ (k : Nat) (arr : List α), k = (arr.length + bs - 1) / bs →
      (List.range' 0 k bs).map (fun i => (arr.drop i).take bs)
        = batchIter bs arr
  | 0, arr, hk => by
    have h0 : arr.length + bs - 1 < bs :=
      (Nat.div_eq_zero_iff (by omega)).mp hk.symm
    have hlen : arr.length = 0 := by omega
    rw [List.length_eq_zero.mp hlen, batchIter_nil]
    rfl
  | k + 1, arr, hk => by
    cases arr with
    | nil =>
      exfalso
      have h0 : (List.length (α := α) [] + bs - 1) / bs = 0 :=
        (Nat.div_eq_zero_iff (by omega)).mpr (by simp; omega)
      omega
    | cons x xs =>
      rw [List.range'_succ, List.map_cons,
          batchIter_cons bs x xs (Nat.one_le_iff_ne_zero.mp h)]
      congr 1
      have hshift : List.range' (0 + bs) k bs
          = (List.range' 0 k bs).map (fun i => i + bs) :=
        range'_map_add bs bs k 0
      rw [hshift, List.map_map]
      have hcomp : ∀ i ∈ List.range' 0 k bs,
          ((fun i => ((x :: xs).drop i).take bs) ∘ (fun i => i + bs)) i
            = (fun i => (((x :: xs).drop bs).drop i).take bs) i := by
        intro i _
        simp only [Function.comp]
        rw [List.drop_drop, Nat.add_comm]
      rw [List.map_congr_left hcomp]
      apply extractBatches_aux bs h k ((x :: xs).drop bs)
      have e1 : (x :: xs).length + bs - 1 = ((x :: xs).length - 1) + bs := by
        simp only [List.length_cons]
        omega
      rw [e1, Nat.add_div_right _ (by omega)] at hk
      rw [List.length_drop, ceil_div_shift bs (x :: xs).length h]
      omega

/-- The slicing of `extract` computes exactly the consecutive chunks. -/
theorem extractBatches_eq_batchIter {α : Type} (bs : Nat) (h : 1 ≤ bs)
    (arr : List α) : extractBatches bs arr = batchIter bs arr :=
  extractBatches_aux bs h _ arr rfl

theorem extract_map {α β : Type} (rowEmbed : α → β) (arr : List α) (bs : Nat)
    (h : 1 ≤ bs) : extract rowEmbed arr bs = arr.map rowEmbed := by
  have hEV : elmo_vectors (α := α) (β := β) rowEmbed = List.map rowEmbed :=
    funext (fun b => rfl)
  rw [extract, hEV, extractBatches_eq_batchIter bs h arr,
      ← List.map_flatten, batchIter_join bs h arr]

/-! ### The claims -/

/-- Claim C1 (corrected).  The preprocessed text file has exactly one line
per input row whose title and abstract are both present, in order; line i
is the space-joined tokenisation of the i-th such row's merged title and
abstract (given a tokeniser that emits no newline character).  As stated
over all input rows the claim fails, because `dropna()` drops rows with a
missing title or abstract before the tokenisation loop. -/
theorem c1_one_line_per_complete_row (t : Table) (pairs : List (Cell × Cell))
    (tf : String) (bs : Nat) (tok : String → List String) (fs : FS)
    (hfs : fsLookup fs "data/arxiv_data_cats.tsv" = some (.table t))
    (hp : titleAbstractPairs t = some pairs)
    (hnl : ∀ d, '\n' ∉ (String.intercalate " " (tok d)).data) :
    fsLookup (preprocess_data "arxiv_data_cats" "arxiv_data_mcats" tf "data"
        bs tok fs).fs "data/preprocessed_docs.txt"
      = some (.text (writeDocs tok (mergedDocs pairs))) ∧
    readlines (writeDocs tok (mergedDocs pairs))
      = (mergedDocs pairs).map (tokLine tok) ∧
    (readlines (writeDocs tok (mergedDocs pairs))).length
      = (mergedDocs pairs).length :=
  ⟨preprocess_txt t pairs tf bs tok fs hfs hp,
   readlines_writeDocs tok (mergedDocs pairs) hnl,
   by rw [readlines_writeDocs tok (mergedDocs pairs) hnl, List.length_map]⟩

/-- Witness for C1: the clean one-row table satisfies the hypotheses and
the theorem applies to it. -/
theorem c1_one_line_per_complete_row_witness :
    (fsLookup wFS "data/arxiv_data_cats.tsv" = some (.table wTable)) ∧
    (titleAbstractPairs wTable = some wPairs) ∧
    (∀ d, '\n' ∉ (String.intercalate " " (wTok d)).data) ∧
    (fsLookup (preprocess_data "arxiv_data_cats" "arxiv_data_mcats"
          "preprocessed_docs.txt" "data" 1000 wTok wFS).fs
        "data/preprocessed_docs.txt"
      = some (.text (writeDocs wTok (mergedDocs wPairs))) ∧
    readlines (writeDocs wTok (mergedDocs wPairs))
      = (mergedDocs wPairs).map (tokLine wTok) ∧
    (readlines (writeDocs wTok (mergedDocs wPairs))).length
      = (mergedDocs wPairs).length) :=
  ⟨by decide, by decide, fun d => by
     show Not (Membership.mem (String.intercalate " " ["x", "y"]).data '\n')
     decide,
   c1_one_line_per_complete_row wTable wPairs "preprocessed_docs.txt" 1000
     wTok wFS (by decide) (by decide) (fun d => by
     show Not (Membership.mem (String.intercalate " " ["x", "y"]).data '\n')
     decide)⟩

/-- Counterexample to C1 as stated: a two-row input whose second row has a
missing title produces a text file with a single line, not one line per
input row. -/
theorem c1_fails_on_missing_value :
    exTable.rows.length = 2 ∧
    exRun.err = none ∧
    fsLookup exRun.fs "data/preprocessed_docs.txt"
      = some (.text "t1 a1\n") ∧
    readlines "t1 a1\n" = ["t1 a1\n"] ∧
    (readlines "t1 a1\n").length ≠ exTable.rows.length := by
  decide

/-- Claim C2 (corrected).  Every output tsv written by preprocess_data —
the cats output and the mcats output, including a cats output written by a
run whose later mcats step fails — has `text` as its first column followed
by that input table's category columns (all columns except title and
abstract) in their original order; the category values are those of the
input rows that have no missing value in any column, unchanged and in
order.  As stated over all rows the claim fails, because `dropna()` drops
every row containing a missing value, so the surviving category values are
a strict sub-sequence of the input column when any row has a missing
cell.  The cats output part holds unconditionally once the cats line count
matches; the mcats output is written exactly when its own line count
matches, and otherwise the ValueError propagates with no mcats output
created. -/
theorem c2_category_columns_roundtrip (t tm : Table)
    (pairs : List (Cell × Cell)) (tf : String) (bs : Nat)
    (tok : String → List String) (fs : FS)
    (hfs : fsLookup fs "data/arxiv_data_cats.tsv" = some (.table t))
    (hm : fsLookup fs "data/arxiv_data_mcats.tsv" = some (.table tm))
    (hp : titleAbstractPairs t = some pairs)
    (hrect : ∀ r ∈ t.rows, r.length = t.header.length)
    (hrectm : ∀ r ∈ tm.rows, r.length = tm.header.length)
    (htam : "title" ∈ tm.header ∧ "abstract" ∈ tm.header)
    (hnl : ∀ d, '\n' ∉ (String.intercalate " " (tok d)).data)
    (hlen : ((mergedDocs pairs).map (tokLine tok)).length
        = (t.rows.filter rowFull).length) :
    fsLookup (preprocess_data "arxiv_data_cats" "arxiv_data_mcats" tf "data"
        bs tok fs).fs "data/arxiv_data_cats_pp.tsv"
      = some (.table ⟨"text" :: catCols t.header,
          (((mergedDocs pairs).map (tokLine tok)).zip
            (t.rows.filter rowFull)).map
            (fun p => some p.1 :: dropTA t.header p.2)⟩) ∧
    ((((mergedDocs pairs).map (tokLine tok)).zip
        (t.rows.filter rowFull)).map
        (fun p => some p.1 :: dropTA t.header p.2)).map (fun r => r.drop 1)
      = (t.rows.filter rowFull).map (dropTA t.header) ∧
    (((mergedDocs pairs).map (tokLine tok)).length
        = (tm.rows.filter rowFull).length →
      fsLookup (preprocess_data "arxiv_data_cats" "arxiv_data_mcats" tf
          "data" bs tok fs).fs "data/arxiv_data_mcats_pp.tsv"
        = some (.table ⟨"text" :: catCols tm.header,
            (((mergedDocs pairs).map (tokLine tok)).zip
              (tm.rows.filter rowFull)).map
              (fun p => some p.1 :: dropTA tm.header p.2)⟩) ∧
      ((((mergedDocs pairs).map (tokLine tok)).zip
          (tm.rows.filter rowFull)).map
          (fun p => some p.1 :: dropTA tm.header p.2)).map (fun r => r.drop 1)
        = (tm.rows.filter rowFull).map (dropTA tm.header)) ∧
    (((mergedDocs pairs).map (tokLine tok)).length
        ≠ (tm.rows.filter rowFull).length →
      (preprocess_data "arxiv_data_cats" "arxiv_data_mcats" tf "data"
          bs tok fs).err = some "ValueError" ∧
      fsLookup (preprocess_data "arxiv_data_cats" "arxiv_data_mcats" tf
          "data" bs tok fs).fs "data/arxiv_data_mcats_pp.tsv"
        = fsLookup fs "data/arxiv_data_mcats_pp.tsv") := by
  have hW : readlines (writeDocs tok (mergedDocs pairs))
      = (mergedDocs pairs).map (tokLine tok) :=
    readlines_writeDocs tok (mergedDocs pairs) hnl
  have hrun := preprocess_run t pairs tf bs tok fs hfs hp hrect hnl hlen
  have hreadm : readCsvFull
      (fsWrite (fsWrite fs "data/preprocessed_docs.txt"
          (.text (writeDocs tok (mergedDocs pairs))))
        "data/arxiv_data_cats_pp.tsv"
        (.table ⟨"text" :: catCols t.header,
          (((mergedDocs pairs).map (tokLine tok)).zip
            (t.rows.filter rowFull)).map
            (fun p => some p.1 :: dropTA t.header p.2)⟩))
      "data/arxiv_data_mcats.tsv" = .ok tm := by
    apply readCsvFull_table _ _ tm _ hrectm
    rw [fsLookup_write_ne _ _ _ _ (by decide),
        fsLookup_write_ne _ _ _ _ (by decide)]
    exact hm
  have htxtm : fsLookup
      (fsWrite (fsWrite fs "data/preprocessed_docs.txt"
          (.text (writeDocs tok (mergedDocs pairs))))
        "data/arxiv_data_cats_pp.tsv"
        (.table ⟨"text" :: catCols t.header,
          (((mergedDocs pairs).map (tokLine tok)).zip
            (t.rows.filter rowFull)).map
            (fun p => some p.1 :: dropTA t.header p.2)⟩))
      "data/preprocessed_docs.txt"
      = some (.text (writeDocs tok (mergedDocs pairs))) := by
    rw [fsLookup_write_ne _ _ _ _ (by decide)]
    exact fsLookup_write_eq _ _ _
  refine ⟨?_, zip_rows_drop_one t.header _ _ hlen, ?_, ?_⟩
  · rw [hrun]
    rcases storeStep_fs
        (fsWrite (fsWrite fs "data/preprocessed_docs.txt"
            (.text (writeDocs tok (mergedDocs pairs))))
          "data/arxiv_data_cats_pp.tsv"
          (.table ⟨"text" :: catCols t.header,
            (((mergedDocs pairs).map (tokLine tok)).zip
              (t.rows.filter rowFull)).map
              (fun p => some p.1 :: dropTA t.header p.2)⟩))
        "data/preprocessed_docs.txt" "data/arxiv_data_mcats.tsv"
        "data/arxiv_data_mcats_pp.tsv" with hkeep | ⟨d, hw⟩
    · rw [hkeep]
      exact fsLookup_write_eq _ _ _
    · rw [hw, fsLookup_write_ne _ _ _ _ (by decide)]
      exact fsLookup_write_eq _ _ _
  · intro hlenm
    rw [hrun]
    have hs2 := storeStep_writes _ "data/preprocessed_docs.txt"
      "data/arxiv_data_mcats.tsv" "data/arxiv_data_mcats_pp.tsv" tm
      (writeDocs tok (mergedDocs pairs)) hreadm htam htxtm
      (by rw [hW]; exact hlenm)
    rw [hs2]
    dsimp only
    rw [hW]
    exact ⟨fsLookup_write_eq _ _ _, zip_rows_drop_one tm.header _ _ hlenm⟩
  · intro hne
    rw [hrun]
    have hs2 := storeStep_len_mismatch _ "data/preprocessed_docs.txt"
      "data/arxiv_data_mcats.tsv" "data/arxiv_data_mcats_pp.tsv" tm
      (writeDocs tok (mergedDocs pairs)) hreadm htam htxtm
      (by rw [hW]; exact hne)
    rw [hs2]
    refine ⟨rfl, ?_⟩
    rw [fsLookup_write_ne _ _ _ _ (by decide),
        fsLookup_write_ne _ _ _ _ (by decide)]

/-- Witness for C2: the clean one-row table (stored under both names)
satisfies every hypothesis, including the mcats line-count match, and the
theorem applies to it. -/
theorem c2_category_columns_roundtrip_witness :
    (fsLookup wFS "data/arxiv_data_cats.tsv" = some (.table wTable)) ∧
    (fsLookup wFS "data/arxiv_data_mcats.tsv" = some (.table wTable)) ∧
    (titleAbstractPairs wTable = some wPairs) ∧
    (∀ r ∈ wTable.rows, r.length = wTable.header.length) ∧
    ("title" ∈ wTable.header ∧ "abstract" ∈ wTable.header) ∧
    (∀ d, '\n' ∉ (String.intercalate " " (wTok d)).data) ∧
    (((mergedDocs wPairs).map (tokLine wTok)).length
      = (wTable.rows.filter rowFull).length) ∧
    (fsLookup (preprocess_data "arxiv_data_cats" "arxiv_data_mcats"
          "preprocessed_docs.txt" "data" 1000 wTok wFS).fs
        "data/arxiv_data_cats_pp.tsv"
      = some (.table ⟨"text" :: catCols wTable.header,
          (((mergedDocs wPairs).map (tokLine wTok)).zip
            (wTable.rows.filter rowFull)).map
            (fun p => some p.1 :: dropTA wTable.header p.2)⟩) ∧
    ((((mergedDocs wPairs).map (tokLine wTok)).zip
        (wTable.rows.filter rowFull)).map
        (fun p => some p.1 :: dropTA wTable.header p.2)).map
        (fun r => r.drop 1)
      = (wTable.rows.filter rowFull).map (dropTA wTable.header) ∧
    (((mergedDocs wPairs).map (tokLine wTok)).length
        = (wTable.rows.filter rowFull).length →
      fsLookup (preprocess_data "arxiv_data_cats" "arxiv_data_mcats"
          "preprocessed_docs.txt" "data" 1000 wTok wFS).fs
          "data/arxiv_data_mcats_pp.tsv"
        = some (.table ⟨"text" :: catCols wTable.header,
            (((mergedDocs wPairs).map (tokLine wTok)).zip
              (wTable.rows.filter rowFull)).map
              (fun p => some p.1 :: dropTA wTable.header p.2)⟩) ∧
      ((((mergedDocs wPairs).map (tokLine wTok)).zip
          (wTable.rows.filter rowFull)).map
          (fun p => some p.1 :: dropTA wTable.header p.2)).map
          (fun r => r.drop 1)
        = (wTable.rows.filter rowFull).map (dropTA wTable.header)) ∧
    (((mergedDocs wPairs).map (tokLine wTok)).length
        ≠ (wTable.rows.filter rowFull).length →
      (preprocess_data "arxiv_data_cats" "arxiv_data_mcats"
          "preprocessed_docs.txt" "data" 1000 wTok wFS).err
        = some "ValueError" ∧
      fsLookup (preprocess_data "arxiv_data_cats" "arxiv_data_mcats"
          "preprocessed_docs.txt" "data" 1000 wTok wFS).fs
          "data/arxiv_data_mcats_pp.tsv"
        = fsLookup wFS "data/arxiv_data_mcats_pp.tsv")) :=
  ⟨by decide, by decide, by decide, by decide, by decide,
   fun d => by
     show Not (Membership.mem (String.intercalate " " ["x", "y"]).data '\n')
     decide,
   by decide,
   c2_category_columns_roundtrip wTable wTable wPairs
     "preprocessed_docs.txt" 1000 wTok wFS (by decide) (by decide)
     (by decide) (by decide) (by decide) (by decide)
     (fun d => by
       show Not (Membership.mem (String.intercalate " " ["x", "y"]).data '\n')
       decide)
     (by decide)⟩

/-- Counterexample to C2 as stated: the example run writes a cats output
whose `cat` column holds one value where the input column held two, so the
category values did not round-trip unchanged. -/
theorem c2_fails_on_missing_value :
    fsLookup exRun.fs "data/arxiv_data_cats_pp.tsv"
      = some (.table ⟨["text", "cat"], [[some "t1 a1\n", some "1"]]⟩) ∧
    exTable.rows.map (fun r => r.getD 2 none) = [some "1", some "2"] ∧
    [[some "t1 a1\n", some "1"]].map (fun r => r.getD 1 none)
      ≠ exTable.rows.map (fun r => r.getD 2 none) := by
  decide

/-- Claim C3 (confirmed).  The preprocessed text file is exactly the
concatenation of one line per merged title-plus-abstract document, each
line being the document's tokens joined by single space characters and
terminated by a newline. -/
theorem c3_txt_is_space_joined_lines (t : Table) (pairs : List (Cell × Cell))
    (tf : String) (bs : Nat) (tok : String → List String) (fs : FS)
    (hfs : fsLookup fs "data/arxiv_data_cats.tsv" = some (.table t))
    (hp : titleAbstractPairs t = some pairs) :
    fsLookup (preprocess_data "arxiv_data_cats" "arxiv_data_mcats" tf "data"
        bs tok fs).fs "data/preprocessed_docs.txt"
      = some (.text (String.join ((mergedDocs pairs).map
          (fun d => String.intercalate " " (tok d) ++ "\n")))) := by
  have h := preprocess_txt t pairs tf bs tok fs hfs hp
  rw [writeDocs_eq_join] at h
  exact h

/-- Witness for C3: the clean one-row table satisfies the hypotheses and
the theorem applies to it. -/
theorem c3_txt_is_space_joined_lines_witness :
    (fsLookup wFS "data/arxiv_data_cats.tsv" = some (.table wTable)) ∧
    (titleAbstractPairs wTable = some wPairs) ∧
    fsLookup (preprocess_data "arxiv_data_cats" "arxiv_data_mcats"
          "preprocessed_docs.txt" "data" 1000 wTok wFS).fs
        "data/preprocessed_docs.txt"
      = some (.text (String.join ((mergedDocs wPairs).map
          (fun d => String.intercalate " " (wTok d) ++ "\n")))) :=
  ⟨by decide, by decide,
   c3_txt_is_space_joined_lines wTable wPairs "preprocessed_docs.txt" 1000
     wTok wFS (by decide) (by decide)⟩

/-- Claim C4 (confirmed).  When the input tsv cannot be read, the
FileNotFoundError of the underlying read propagates out of
`preprocess_data` untransformed and the filesystem is returned exactly as
it was: no output file has been created.  The same exception propagates
untransformed out of `load_data`. -/
theorem c4_missing_input_error_propagates (cf mf tf dd : String) (bs : Nat)
    (tok : String → List String) (fs : FS)
    (h : fsLookup fs (dd ++ "/" ++ cf ++ ".tsv") = none) :
    preprocess_data cf mf tf dd bs tok fs = ⟨some "FileNotFoundError", fs⟩ ∧
    ∀ (tn dn : String) (fs2 : FS),
      fsLookup fs2 (dn ++ "/" ++ tn ++ ".tsv") = none →
      load_data tn dn fs2 = .error "FileNotFoundError" := by
  constructor
  · unfold preprocess_data
    rw [h]
  · intro tn dn fs2 h2
    unfold load_data
    rw [h2]

/-- Witness for C4: on the empty filesystem the input is missing and the
theorem applies. -/
theorem c4_missing_input_error_propagates_witness :
    (fsLookup ([] : FS) ("data" ++ "/" ++ "arxiv_data_cats" ++ ".tsv")
      = none) ∧
    (preprocess_data "arxiv_data_cats" "arxiv_data_mcats"
        "preprocessed_docs.txt" "data" 1000 exTok []
      = ⟨some "FileNotFoundError", []⟩ ∧
    ∀ (tn dn : String) (fs2 : FS),
      fsLookup fs2 (dn ++ "/" ++ tn ++ ".tsv") = none →
      load_data tn dn fs2 = .error "FileNotFoundError") :=
  ⟨rfl,
   c4_missing_input_error_propagates "arxiv_data_cats" "arxiv_data_mcats"
     "preprocessed_docs.txt" "data" 1000 exTok [] rfl⟩

/-- Claim C5 (code bug).  Under the cost model `residentRows` — which only
counts the rows `pd.read_csv` materialises at once, all alive together
with the `docs` series the tokenisation loop consumes — the resident data
of `preprocess_data` grows without bound in the number of input rows: for
every candidate constant there is a well-formed input exceeding it, whose
`docs` series alone holds one merged string per row.  This contradicts the
claim (and the function's own docstring) that peak memory is a constant
independent of the input size. -/
theorem c5_resident_rows_unbounded :
    ∀ C : Nat, ∃ t : Table, ∃ pairs : List (Cell × Cell),
      titleAbstractPairs t = some pairs ∧
      (mergedDocs pairs).length = residentRows t ∧
      C < residentRows t :=
  fun C =>
    ⟨tableN (C + 1), List.replicate (C + 1) (some "t", some "a"),
     titleAbstractPairs_tableN (C + 1),
     by simp [mergedDocs_replicate, residentRows, tableN],
     by simp [residentRows, tableN]⟩

/-- Claim C6 (confirmed against the spec-modelled BucketIterator).  The
batch stream of the iterators returned by `load_data` groups samples by
text length: flattening the batches gives the samples ordered by the sort
key `len(sample.text)` (a permutation of the input), so each batch is a
run of samples of similar length, and after padding every batch has a
uniform text length. -/
theorem c6_bucketed_batching_padded (bs : Nat) (samples : List Sample)
    (h : 1 ≤ bs) :
    (bucketBatches (fun s => s.text.length) bs samples).flatten
      = samples.mergeSort (fun a b => decide (a.text.length ≤ b.text.length)) ∧
    (samples.mergeSort
        (fun a b => decide (a.text.length ≤ b.text.length))).Perm samples ∧
    (samples.mergeSort
        (fun a b => decide (a.text.length ≤ b.text.length))).Pairwise
      (fun a b => a.text.length ≤ b.text.length) ∧
    ∀ b ∈ loadDataBatches bs samples, ∀ x ∈ b, ∀ y ∈ b,
      x.text.length = y.text.length := by
  refine ⟨batchIter_join bs h _, List.mergeSort_perm _ _, ?_, ?_⟩
  · have hs := @List.sorted_mergeSort Sample
      (fun a b => decide (a.text.length ≤ b.text.length))
      (fun a b c hab hbc => by
        simp only [decide_eq_true_eq] at hab hbc ⊢
        omega)
      (fun a b => by
        simp only [Bool.or_eq_true, decide_eq_true_eq]
        omega)
      samples
    exact hs.imp (fun hab => by simpa using hab)
  · intro b hb x hx y hy
    obtain ⟨b0, hb0, rfl⟩ := List.mem_map.mp hb
    exact padBatch_uniform b0 x y hx hy

/-- Witness for C6: the three example samples with batch size two. -/
theorem c6_bucketed_batching_padded_witness :
    (1 ≤ 2) ∧
    ((bucketBatches (fun s => s.text.length) 2 wSamples).flatten
      = wSamples.mergeSort
          (fun a b => decide (a.text.length ≤ b.text.length)) ∧
    (wSamples.mergeSort
        (fun a b => decide (a.text.length ≤ b.text.length))).Perm wSamples ∧
    (wSamples.mergeSort
        (fun a b => decide (a.text.length ≤ b.text.length))).Pairwise
      (fun a b => a.text.length ≤ b.text.length) ∧
    ∀ b ∈ loadDataBatches 2 wSamples, ∀ x ∈ b, ∀ y ∈ b,
      x.text.length = y.text.length) :=
  ⟨by decide, c6_bucketed_batching_padded 2 wSamples (by decide)⟩

/-- Claim C7 (confirmed).  Running the module directly calls
`preprocess_data` with every argument at its default from the function
signature; the command line is never parsed, so the behaviour is the same
for every argument vector. -/
theorem c7_main_defaults_no_flags :
    ∀ (argv argv2 : List String) (tok : String → List String) (fs : FS),
      mainScript argv tok fs
        = preprocess_data "arxiv_data_cats" "arxiv_data_mcats"
            "preprocessed_docs.txt" "data" 1000 tok fs ∧
      mainScript argv tok fs = mainScript argv2 tok fs :=
  fun _ _ _ _ => ⟨rfl, rfl⟩

/-- Claim C8 (confirmed).  For every finite input and `batch_size ≥ 1`,
`batch_iter` — modelled by the total function `batchIter` under the
assumption that each yielded batch is fully consumed — yields only
non-empty batches of at most `batch_size` elements whose concatenation in
order is the input sequence; being a `List`, the batch stream is finite,
ending after the batch holding the last element instead of yielding empty
batches forever. -/
theorem c8_batch_iter_chunks {α : Type} (bs : Nat) (l : List α)
    (h : 1 ≤ bs) :
    (batchIter bs l).flatten = l ∧
    ∀ b ∈ batchIter bs l, b ≠ [] ∧ b.length ≤ bs :=
  ⟨batchIter_join bs h l, fun b hb => batchIter_mem bs h l b hb⟩

/-- Witness for C8: batch size two over five elements. -/
theorem c8_batch_iter_chunks_witness :
    (1 ≤ 2) ∧
    ((batchIter 2 [1, 2, 3, 4, 5]).flatten = [1, 2, 3, 4, 5] ∧
    ∀ b ∈ batchIter 2 [1, 2, 3, 4, 5], b ≠ [] ∧ b.length ≤ 2) :=
  ⟨by decide, c8_batch_iter_chunks 2 [1, 2, 3, 4, 5] (by decide)⟩

/-- Claim C9 (confirmed).  `preprocess_data` ignores its `txt_fname`
parameter entirely — the result is identical for any two values — and the
preprocessed text is written to (and read back from)
`data_dir/preprocessed_docs.txt` whatever `txt_fname` says. -/
theorem c9_txt_fname_ignored (cf mf dd tf1 tf2 : String) (bs : Nat)
    (tok : String → List String) (fs : FS) (t : Table)
    (pairs : List (Cell × Cell))
    (hfs : fsLookup fs "data/arxiv_data_cats.tsv" = some (.table t))
    (hp : titleAbstractPairs t = some pairs) :
    preprocess_data cf mf tf1 dd bs tok fs
      = preprocess_data cf mf tf2 dd bs tok fs ∧
    fsLookup (preprocess_data "arxiv_data_cats" "arxiv_data_mcats" tf1 "data"
        bs tok fs).fs "data/preprocessed_docs.txt"
      = some (.text (writeDocs tok (mergedDocs pairs))) :=
  ⟨rfl, preprocess_txt t pairs tf1 bs tok fs hfs hp⟩

/-- Witness for C9: two distinct `txt_fname` values over the clean
table. -/
theorem c9_txt_fname_ignored_witness :
    (fsLookup wFS "data/arxiv_data_cats.tsv" = some (.table wTable)) ∧
    (titleAbstractPairs wTable = some wPairs) ∧
    (preprocess_data "arxiv_data_cats" "arxiv_data_mcats" "A" "data" 1000
        wTok wFS
      = preprocess_data "arxiv_data_cats" "arxiv_data_mcats" "B" "data" 1000
        wTok wFS ∧
    fsLookup (preprocess_data "arxiv_data_cats" "arxiv_data_mcats" "A" "data"
        1000 wTok wFS).fs "data/preprocessed_docs.txt"
      = some (.text (writeDocs wTok (mergedDocs wPairs)))) :=
  ⟨by decide, by decide,
   c9_txt_fname_ignored "arxiv_data_cats" "arxiv_data_mcats" "data" "A" "B"
     1000 wTok wFS wTable wPairs (by decide) (by decide)⟩

/-- Claim C10 (confirmed).  For every non-empty input and
`batch_size ≥ 1`, `extract` slices the rows into consecutive batches of
`batch_size` rows (every batch before the last is full, the last is
non-empty and at most `batch_size`), processes each batch exactly once in
order, and returns one output row per input row with output row i derived
from input row i by the per-row embedding. -/
theorem c10_extract_rowwise_batches {α β : Type} (rowEmbed : α → β)
    (arr : List α) (bs : Nat) (hne : arr ≠ []) (hbs : 1 ≤ bs) :
    extract rowEmbed arr bs = arr.map rowEmbed ∧
    (extract rowEmbed arr bs).length = arr.length ∧
    (∀ i : Nat, (extract rowEmbed arr bs)[i]? = arr[i]?.map rowEmbed) ∧
    (extractBatches bs arr).flatten = arr ∧
    (∀ b ∈ extractBatches bs arr, b ≠ [] ∧ b.length ≤ bs) ∧
    (∀ b ∈ (extractBatches bs arr).dropLast, b.length = bs) := by
  have hm := extract_map rowEmbed arr bs hbs
  have hb := extractBatches_eq_batchIter bs hbs arr
  refine ⟨hm, ?_, ?_, ?_, ?_, ?_⟩
  · rw [hm, List.length_map]
  · intro i
    rw [hm, List.getElem?_map]
  · rw [hb]
    exact batchIter_join bs hbs arr
  · rw [hb]
    exact fun b hbm => batchIter_mem bs hbs arr b hbm
  · rw [hb]
    exact fun b hbm => batchIter_full bs hbs arr b hbm

/-- Witness for C10: three rows, batch size two, embedding adding ten. -/
theorem c10_extract_rowwise_batches_witness :
    (([1, 2, 3] : List Nat) ≠ []) ∧ (1 ≤ 2) ∧
    (extract (fun n => n + 10) [1, 2, 3] 2 = [1, 2, 3].map (fun n => n + 10) ∧
    (extract (fun n => n + 10) [1, 2, 3] 2).length = [1, 2, 3].length ∧
    (∀ i : Nat, (extract (fun n => n + 10) [1, 2, 3] 2)[i]?
      = [1, 2, 3][i]?.map (fun n => n + 10)) ∧
    (extractBatches 2 [1, 2, 3]).flatten = [1, 2, 3] ∧
    (∀ b ∈ extractBatches 2 [1, 2, 3], b ≠ [] ∧ b.length ≤ 2) ∧
    (∀ b ∈ (extractBatches 2 [1, 2, 3]).dropLast, b.length = 2)) :=
  ⟨by decide, by decide,
   c10_extract_rowwise_batches (fun n => n + 10) [1, 2, 3] 2 (by decide)
     (by decide)⟩

end Scholarly
